import Mathlib

/-!
The function `HesaiRosOfflineExtractBag::ReadBag`.

A shallow embedding of `ReadBag` from
`nebula_examples/src/hesai/hesai_ros_offline_extract_bag_pcd.cpp`.

Modelling conventions.

* `std::string` is a list of characters (`Str`).
* `rcpputils::fs::path` is the list of its components, the root string first;
  `operator/` appends one component.
* The reader is the list of the records it will deliver, in recorded order.
  `reader.has_next()` is "the list is not empty", `reader.read_next()` takes
  its head.
* The observable effects (directory creation, opening the output bag,
  `create_topic`, `writer_->write`, `writer.writeBinary`) are recorded as a
  list of `Event`s in program order.  The replay log, the point-cloud files
  and the writer openings are projections of that list.  The lines printed on
  `std::cout` are not modelled.
* `deserialize_message`, `ConvertScanToPointcloud` and `pcl::copyPointCloud`
  are code outside this file and are parameters (`Ext`).  `ReadBag` has no
  `try`/`catch` and checks no status, so a `deserialize_message` that throws
  (`none`) leaves `ReadBag` at that statement: this is `Exit.threw`.
  `reader.open`, `writer_->open`, `writer_->write` and `writeBinary` are
  taken to return normally.
* `cnt` and `out_cnt` are `int` counters that start at `0` and are only
  incremented; they are natural numbers here (a run needs `2^31` matched
  records before the machine counters could differ).  The members `skip_num`
  and `out_num` are declared in the header, which is not part of the
  sources; they are integers here, negative values included.
-/

namespace nebula
namespace ros

/-- A `std::string`. -/
abbrev Str := List Char

/-- An `rcpputils::fs::path`, as the list of its components. -/
abbrev path := List Str

/-- The record type `rosbag2_storage::SerializedBagMessage`. -/
structure SerializedBagMessage where
  topic_name : Str
  time_stamp : Int
  serialized_data : List Nat
deriving DecidableEq

/-- The members of `HesaiRosOfflineExtractBag` that `ReadBag` reads (set by
`GetParameters`). -/
structure Params where
  out_path : Str
  target_topic : Str
  out_num : Int
  skip_num : Int
  only_xyz : Bool
deriving DecidableEq

/-- The calls of `ReadBag` into code outside the file: `none` of
`deserialize_message` is a thrown exception. -/
structure Ext (Scan Cloud : Type) where
  deserialize_message : List Nat → Option Scan
  ConvertScanToPointcloud : Scan → Cloud
  copyPointCloud : Cloud → Cloud

/-- The effects of `ReadBag` on the file system and on the output bag. -/
inductive Event (Cloud : Type) where
  | create_directories (dir : path)
  | open_writer (uri : path)
  | create_topic (name : Str)
  | write (bag_message : SerializedBagMessage)
  | writeBinary (file : path) (cloud : Cloud)
deriving DecidableEq

/-! ## Strings -/

/-- One decimal digit as a character. -/
def digitChar (d : Nat) : Char :=
  match d with
  | 0 => '0' | 1 => '1' | 2 => '2' | 3 => '3' | 4 => '4'
  | 5 => '5' | 6 => '6' | 7 => '7' | 8 => '8' | _ => '9'

/-- The decimal digits of `n` in front of `acc`, most significant first. -/
def toDigitsAux : Nat → Nat → Str → Str
  | 0, _, acc => acc
  | fuel + 1, n, acc =>
    if n < 10 then digitChar n :: acc
    else toDigitsAux fuel (n / 10) (digitChar (n % 10) :: acc)

/-- The decimal rendering of a natural number. -/
def natToString (n : Nat) : Str := toDigitsAux (n + 1) n []

/-- The function `std::to_string` on a signed integer (`time_stamp` is an
`int64_t`). -/
def to_string (t : Int) : Str :=
  if t < 0 then '-' :: natToString (-t).toNat else natToString t.toNat

/-- The order `operator<` of `std::string`: lexicographic, and a string sorts
after each of its proper initial segments. -/
def string_less : Str → Str → Bool
  | _, [] => false
  | [], _ :: _ => true
  | a :: as, b :: bs =>
    if a < b then true else if b < a then false else string_less as bs

/-- The call `std::regex_replace(s, std::regex("/"), "_")`. -/
def regex_replace_slash (s : Str) : Str :=
  s.map (fun c => if c = '/' then '_' else c)

/-- The directory name `target_topic_name` computed at the start of
`ReadBag`. -/
def target_topic_name (target_topic : Str) : Str :=
  let name := target_topic
  let name := if name.take 1 = ['/'] then name.drop 1 else name
  regex_replace_slash name

/-- The sanitized topic name in the words of the specification: one leading
`/` stripped, every remaining `/` replaced by `_`. -/
def spec_sanitized : Str → Str
  | '/' :: rest => rest.map (fun c => if c = '/' then '_' else c)
  | s => s.map (fun c => if c = '/' then '_' else c)

/-- The directory `o_dir` after `o_dir = o_dir / path(target_topic_name)`. -/
def o_dir (P : Params) : path := [P.out_path, target_topic_name P.target_topic]

/-- The file name `fn` of a record's point cloud. -/
def fn (time_stamp : Int) : Str := to_string time_stamp ++ ['.', 'p', 'c', 'd']

/-! ## The loop -/

/-- The local variables of the loop. -/
structure LoopState where
  cnt : Nat
  out_cnt : Nat
  needs_open : Bool
deriving DecidableEq

/-- How one pass through the loop body ends: at the end of the body, at
`break`, or at a thrown exception. -/
inductive Outcome where
  | next (s : LoopState)
  | brk (s : LoopState)
  | thrown
deriving DecidableEq

/-- One pass through the body of the `while` loop for the record
`bag_message`: the events it performs, in order, and how it ends. -/
def body {Scan Cloud : Type} (E : Ext Scan Cloud) (P : Params)
    (bag_message : SerializedBagMessage) (s : LoopState) :
    List (Event Cloud) × Outcome :=
  if bag_message.topic_name = P.target_topic then
    match E.deserialize_message bag_message.serialized_data with
    | none => ([], Outcome.thrown)
    | some extracted_msg =>
      let pointcloud := E.ConvertScanToPointcloud extracted_msg
      let opening : List (Event Cloud) :=
        if s.needs_open then
          [Event.open_writer (o_dir P ++ [to_string bag_message.time_stamp]),
           Event.create_topic bag_message.topic_name]
        else []
      let cnt := s.cnt + 1
      let sampled : Bool := decide (P.skip_num < (cnt : Int))
      let out_cnt := if sampled then s.out_cnt + 1 else s.out_cnt
      let pcd : List (Event Cloud) :=
        if sampled then
          [Event.writeBinary (o_dir P ++ [fn bag_message.time_stamp])
            (if P.only_xyz then E.copyPointCloud pointcloud else pointcloud)]
        else []
      let s1 : LoopState := ⟨cnt, out_cnt, false⟩
      (opening ++ [Event.write bag_message] ++ pcd,
        if P.out_num ≤ (out_cnt : Int) then Outcome.brk s1 else Outcome.next s1)
  else ([], Outcome.next s)

/-- How the loop was left. -/
inductive Exit where
  | exhausted
  | capped
  | threw
deriving DecidableEq

/-- A run of the loop: the events performed, the records read together with
the loop state at the end of their pass (a pass that throws has none), the
records never read, the state of the local variables when the loop is left,
and how it was left. -/
structure Run (Cloud : Type) where
  trace : List (Event Cloud)
  passes : List (SerializedBagMessage × LoopState)
  unread : List SerializedBagMessage
  final : LoopState
  exit : Exit

/-- The `while (reader.has_next())` loop on the records still in the reader. -/
def loop {Scan Cloud : Type} (E : Ext Scan Cloud) (P : Params) :
    List SerializedBagMessage → LoopState → Run Cloud
  | [], s => ⟨[], [], [], s, Exit.exhausted⟩
  | m :: rest, s =>
    match body E P m s with
    | (evs, Outcome.next s1) =>
      let r := loop E P rest s1
      ⟨evs ++ r.trace, (m, s1) :: r.passes, r.unread, r.final, r.exit⟩
    | (evs, Outcome.brk s1) => ⟨evs, [(m, s1)], rest, s1, Exit.capped⟩
    | (evs, Outcome.thrown) => ⟨evs, [], rest, s, Exit.threw⟩

/-- The state of the local variables before the loop. -/
def init : LoopState := ⟨0, 0, true⟩

/-- The function `HesaiRosOfflineExtractBag::ReadBag` on a bag holding the
records `bag`. -/
def ReadBag {Scan Cloud : Type} (E : Ext Scan Cloud) (P : Params)
    (bag : List SerializedBagMessage) : Run Cloud :=
  let r := loop E P bag init
  ⟨Event.create_directories (o_dir P) :: r.trace, r.passes, r.unread, r.final, r.exit⟩

/-! ## Projections of the effects -/

/-- The records written to the output bag, in order. -/
def replay {Cloud : Type} : List (Event Cloud) → List SerializedBagMessage
  | [] => []
  | Event.write m :: es => m :: replay es
  | _ :: es => replay es

/-- The point-cloud files written, in order. -/
def files {Cloud : Type} : List (Event Cloud) → List (path × Cloud)
  | [] => []
  | Event.writeBinary f c :: es => (f, c) :: files es
  | _ :: es => files es

/-- The paths at which the output bag writer was opened, in order. -/
def opens {Cloud : Type} : List (Event Cloud) → List path
  | [] => []
  | Event.open_writer u :: es => u :: opens es
  | _ :: es => opens es

/-- The records of the bag whose topic is `target_topic`, in order. -/
def matched (P : Params) (bag : List SerializedBagMessage) :
    List SerializedBagMessage :=
  bag.filter (fun m => decide (m.topic_name = P.target_topic))

/-- The point-cloud file that the body writes for a matched record, when
the record deserializes. -/
def pcdOf {Scan Cloud : Type} (E : Ext Scan Cloud) (P : Params)
    (m : SerializedBagMessage) : Option (path × Cloud) :=
  (E.deserialize_message m.serialized_data).map (fun extracted_msg =>
    (o_dir P ++ [fn m.time_stamp],
      if P.only_xyz then E.copyPointCloud (E.ConvertScanToPointcloud extracted_msg)
      else E.ConvertScanToPointcloud extracted_msg))

/-- Every record on the target topic deserializes. -/
def Deserializes {Scan Cloud : Type} (E : Ext Scan Cloud) (P : Params)
    (bag : List SerializedBagMessage) : Prop :=
  ∀ m ∈ bag, m.topic_name = P.target_topic →
    (E.deserialize_message m.serialized_data).isSome = true

/-- The matched records in front of the first matched record that does not
deserialize (all matched records when every one of them deserializes). -/
def matchedBeforeThrow {Scan Cloud : Type} (E : Ext Scan Cloud) (P : Params)
    (bag : List SerializedBagMessage) : List SerializedBagMessage :=
  (matched P bag).takeWhile (fun m => (E.deserialize_message m.serialized_data).isSome)

/-! ## A concrete instance -/

/-- An instance of the outside code: a payload deserializes unless it is
empty, the point cloud is the payload, the reduction keeps three values. -/
def ext0 : Ext (List Nat) (List Nat) :=
  ⟨fun d => if d = [] then none else some d, fun d => d, fun c => c.take 3⟩

/-- A record on the topic `/scan`. -/
def scanMsg (t : Int) : SerializedBagMessage := ⟨"/scan".toList, t, [1, 2, 3, 4]⟩

/-- A record on the topic `/other`. -/
def otherMsg (t : Int) : SerializedBagMessage := ⟨"/other".toList, t, [7]⟩

/-- A record on the topic `/scan` that does not deserialize. -/
def badMsg (t : Int) : SerializedBagMessage := ⟨"/scan".toList, t, []⟩

/-- A configuration with target topic `/scan`. -/
def params0 (skip_num out_num : Int) : Params :=
  ⟨"out".toList, "/scan".toList, out_num, skip_num, false⟩

/-- A bag with ten records on `/scan` (time stamps 101 to 112) and two on
`/other`. -/
def bag10 : List SerializedBagMessage :=
  [scanMsg 101, scanMsg 102, otherMsg 103, scanMsg 104, scanMsg 105, scanMsg 106,
   scanMsg 107, otherMsg 108, scanMsg 109, scanMsg 110, scanMsg 111, scanMsg 112]

/-! ## Auxiliary definitions for the proofs -/

/-- The number of matched records the loop still writes from state `s`. -/
def quota (P : Params) (s : LoopState) : Nat :=
  if P.out_num ≤ (s.out_cnt : Int) then 1
  else (P.skip_num - s.cnt).toNat + (P.out_num - s.out_cnt).toNat

/-- The loop state at the end of a pass for a matched record. -/
def stepState (P : Params) (s : LoopState) : LoopState :=
  ⟨s.cnt + 1, if P.skip_num < ((s.cnt + 1 : Nat) : Int) then s.out_cnt + 1 else s.out_cnt,
    false⟩

/-- The events of a pass for a matched record that deserializes to `x`. -/
def stepEvents {Scan Cloud : Type} (E : Ext Scan Cloud) (P : Params)
    (m : SerializedBagMessage) (x : Scan) (s : LoopState) : List (Event Cloud) :=
  (if s.needs_open then
      [Event.open_writer (o_dir P ++ [to_string m.time_stamp]),
        Event.create_topic m.topic_name]
    else []) ++ [Event.write m] ++
  (if P.skip_num < ((s.cnt + 1 : Nat) : Int) then
      [Event.writeBinary (o_dir P ++ [fn m.time_stamp])
        (if P.only_xyz then E.copyPointCloud (E.ConvertScanToPointcloud x)
          else E.ConvertScanToPointcloud x)]
    else [])

instance instDecidableDeserializes {Scan Cloud : Type} (E : Ext Scan Cloud) (P : Params)
    (bag : List SerializedBagMessage) : Decidable (Deserializes E P bag) := by
  unfold Deserializes
  infer_instance

/-! ## Lemmas -/

theorem replay_append {Cloud : Type} (a b : List (Event Cloud)) :
    replay (a ++ b) = replay a ++ replay b := by
  induction a with
  | nil => rfl
  | cons e es ih => cases e <;> simp [replay, ih]

theorem files_append {Cloud : Type} (a b : List (Event Cloud)) :
    files (a ++ b) = files a ++ files b := by
  induction a with
  | nil => rfl
  | cons e es ih => cases e <;> simp [files, ih]

theorem opens_append {Cloud : Type} (a b : List (Event Cloud)) :
    opens (a ++ b) = opens a ++ opens b := by
  induction a with
  | nil => rfl
  | cons e es ih => cases e <;> simp [opens, ih]

theorem body_other {Scan Cloud : Type} (E : Ext Scan Cloud) (P : Params)
    (m : SerializedBagMessage) (s : LoopState) (h : m.topic_name ≠ P.target_topic) :
    body E P m s = ([], Outcome.next s) := by
  simp [body, h]

theorem body_match {Scan Cloud : Type} (E : Ext Scan Cloud) (P : Params)
    (m : SerializedBagMessage) (s : LoopState) (x : Scan)
    (hm : m.topic_name = P.target_topic)
    (hx : E.deserialize_message m.serialized_data = some x) :
    body E P m s = (stepEvents E P m x s,
      if P.out_num ≤ ((stepState P s).out_cnt : Int) then Outcome.brk (stepState P s)
      else Outcome.next (stepState P s)) := by
  simp only [body, hm, hx, stepEvents, stepState, if_true]
  by_cases h : P.skip_num < ((s.cnt + 1 : Nat) : Int) <;> simp [h]

theorem body_throw {Scan Cloud : Type} (E : Ext Scan Cloud) (P : Params)
    (m : SerializedBagMessage) (s : LoopState)
    (hm : m.topic_name = P.target_topic)
    (hx : E.deserialize_message m.serialized_data = none) :
    body E P m s = (([] : List (Event Cloud)), Outcome.thrown) := by
  simp [body, hm, hx]

theorem loop_other {Scan Cloud : Type} (E : Ext Scan Cloud) (P : Params)
    (m : SerializedBagMessage) (rest : List SerializedBagMessage) (s : LoopState)
    (h : m.topic_name ≠ P.target_topic) :
    loop E P (m :: rest) s =
      ⟨(loop E P rest s).trace, (m, s) :: (loop E P rest s).passes,
        (loop E P rest s).unread, (loop E P rest s).final, (loop E P rest s).exit⟩ := by
  simp [loop, body_other E P m s h]

theorem loop_brk {Scan Cloud : Type} (E : Ext Scan Cloud) (P : Params)
    (m : SerializedBagMessage) (rest : List SerializedBagMessage) (s : LoopState) (x : Scan)
    (hm : m.topic_name = P.target_topic)
    (hx : E.deserialize_message m.serialized_data = some x)
    (hb : P.out_num ≤ ((stepState P s).out_cnt : Int)) :
    loop E P (m :: rest) s =
      ⟨stepEvents E P m x s, [(m, stepState P s)], rest, stepState P s, Exit.capped⟩ := by
  simp [loop, body_match E P m s x hm hx, hb]

theorem loop_next {Scan Cloud : Type} (E : Ext Scan Cloud) (P : Params)
    (m : SerializedBagMessage) (rest : List SerializedBagMessage) (s : LoopState) (x : Scan)
    (hm : m.topic_name = P.target_topic)
    (hx : E.deserialize_message m.serialized_data = some x)
    (hb : ¬ P.out_num ≤ ((stepState P s).out_cnt : Int)) :
    loop E P (m :: rest) s =
      ⟨stepEvents E P m x s ++ (loop E P rest (stepState P s)).trace,
        (m, stepState P s) :: (loop E P rest (stepState P s)).passes,
        (loop E P rest (stepState P s)).unread, (loop E P rest (stepState P s)).final,
        (loop E P rest (stepState P s)).exit⟩ := by
  simp [loop, body_match E P m s x hm hx, hb]

theorem loop_throw {Scan Cloud : Type} (E : Ext Scan Cloud) (P : Params)
    (m : SerializedBagMessage) (rest : List SerializedBagMessage) (s : LoopState)
    (hm : m.topic_name = P.target_topic)
    (hx : E.deserialize_message m.serialized_data = none) :
    loop E P (m :: rest) s = ⟨[], [], rest, s, Exit.threw⟩ := by
  simp [loop, body_throw E P m s hm hx]

theorem replay_stepEvents {Scan Cloud : Type} (E : Ext Scan Cloud) (P : Params)
    (m : SerializedBagMessage) (x : Scan) (s : LoopState) :
    replay (stepEvents E P m x s) = [m] := by
  unfold stepEvents
  split <;> split <;> simp [replay]

theorem files_stepEvents {Scan Cloud : Type} (E : Ext Scan Cloud) (P : Params)
    (m : SerializedBagMessage) (x : Scan) (s : LoopState)
    (hx : E.deserialize_message m.serialized_data = some x) :
    files (stepEvents E P m x s) =
      if P.skip_num < ((s.cnt + 1 : Nat) : Int) then (pcdOf E P m).toList else [] := by
  unfold stepEvents pcdOf
  rw [hx]
  split <;> split <;> simp [files]

theorem opens_stepEvents {Scan Cloud : Type} (E : Ext Scan Cloud) (P : Params)
    (m : SerializedBagMessage) (x : Scan) (s : LoopState) :
    opens (stepEvents E P m x s) =
      if s.needs_open then [o_dir P ++ [to_string m.time_stamp]] else [] := by
  unfold stepEvents
  split <;> split <;> simp [opens]

theorem loop_replay {Scan Cloud : Type} (E : Ext Scan Cloud) (P : Params)
    (bag : List SerializedBagMessage) (s : LoopState) (hdes : Deserializes E P bag) :
    replay (loop E P bag s).trace = (matched P bag).take (quota P s) := by
  induction bag generalizing s with
  | nil => simp [loop, matched, replay]
  | cons m rest ih =>
    have hrest : Deserializes E P rest := fun x hx => hdes x (List.mem_cons_of_mem _ hx)
    by_cases hm : m.topic_name = P.target_topic
    · have hd := hdes m (List.mem_cons_self _ _) hm
      obtain ⟨x, hx⟩ := Option.isSome_iff_exists.mp hd
      by_cases hb : P.out_num ≤ ((stepState P s).out_cnt : Int)
      · rw [loop_brk E P m rest s x hm hx hb]
        simp only [replay_stepEvents, matched, hm, List.filter_cons, decide_True, if_true]
        have hq : quota P s = 1 := by
          unfold quota; unfold stepState at hb; simp only at hb
          split_ifs at hb ⊢ <;> omega
        simp [hq]
      · rw [loop_next E P m rest s x hm hx hb]
        simp only [replay_append, replay_stepEvents, matched, hm, List.filter_cons,
          decide_True, if_true]
        have hq : quota P s = quota P (stepState P s) + 1 := by
          unfold quota; unfold stepState at hb ⊢; simp only at hb ⊢
          split_ifs at hb ⊢ <;> omega
        rw [hq, List.take_succ_cons, ih _ hrest]
        rfl
    · rw [loop_other E P m rest s hm]
      simp [matched, hm]
      exact ih s hrest

theorem matched_cons_match (P : Params) (m : SerializedBagMessage)
    (rest : List SerializedBagMessage) (hm : m.topic_name = P.target_topic) :
    matched P (m :: rest) = m :: matched P rest := by
  simp [matched, hm]

theorem matched_cons_other (P : Params) (m : SerializedBagMessage)
    (rest : List SerializedBagMessage) (hm : m.topic_name ≠ P.target_topic) :
    matched P (m :: rest) = matched P rest := by
  simp [matched, hm]

theorem loop_files {Scan Cloud : Type} (E : Ext Scan Cloud) (P : Params)
    (bag : List SerializedBagMessage) (s : LoopState) (hdes : Deserializes E P bag) :
    files (loop E P bag s).trace =
      (((matched P bag).take (quota P s)).drop (P.skip_num - s.cnt).toNat).filterMap
        (pcdOf E P) := by
  induction bag generalizing s with
  | nil => simp [loop, matched, files]
  | cons m rest ih =>
    have hrest : Deserializes E P rest := fun x hx => hdes x (List.mem_cons_of_mem _ hx)
    by_cases hm : m.topic_name = P.target_topic
    · have hd := hdes m (List.mem_cons_self _ _) hm
      obtain ⟨x, hx⟩ := Option.isSome_iff_exists.mp hd
      have hp : pcdOf E P m = some (o_dir P ++ [fn m.time_stamp],
          if P.only_xyz then E.copyPointCloud (E.ConvertScanToPointcloud x)
          else E.ConvertScanToPointcloud x) := by simp [pcdOf, hx]
      rw [matched_cons_match P m rest hm]
      by_cases hb : P.out_num ≤ ((stepState P s).out_cnt : Int)
      · rw [loop_brk E P m rest s x hm hx hb]
        have hq : quota P s = 1 := by
          unfold quota; unfold stepState at hb; simp only at hb
          split_ifs at hb ⊢ <;> omega
        rw [hq, files_stepEvents E P m x s hx]
        by_cases hs : P.skip_num < ((s.cnt + 1 : Nat) : Int)
        · have h0 : (P.skip_num - s.cnt).toNat = 0 := by omega
          rw [if_pos hs, h0, hp]
          simp [List.filterMap_cons_some hp]
        · have h0 : (P.skip_num - s.cnt).toNat = (P.skip_num - s.cnt).toNat - 1 + 1 := by omega
          rw [if_neg hs, h0]
          simp
      · rw [loop_next E P m rest s x hm hx hb]
        have hq : quota P s = quota P (stepState P s) + 1 := by
          unfold quota; unfold stepState at hb ⊢; simp only at hb ⊢
          split_ifs at hb ⊢ <;> omega
        simp only [files_append]
        rw [hq, List.take_succ_cons, ih _ hrest, files_stepEvents E P m x s hx]
        by_cases hs : P.skip_num < ((s.cnt + 1 : Nat) : Int)
        · have h0 : (P.skip_num - s.cnt).toNat = 0 := by omega
          have h1 : (P.skip_num - ((stepState P s).cnt : Int)).toNat = 0 := by
            simp only [stepState]; omega
          rw [if_pos hs, h0, h1, List.drop_zero, List.drop_zero, List.filterMap_cons_some hp, hp]
          rfl
        · have h0 : (P.skip_num - s.cnt).toNat =
              (P.skip_num - ((stepState P s).cnt : Int)).toNat + 1 := by
            simp only [stepState]; omega
          rw [if_neg hs, h0, List.drop_succ_cons]
          rfl
    · rw [loop_other E P m rest s hm, matched_cons_other P m rest hm]
      exact ih s hrest

theorem loop_cnt {Scan Cloud : Type} (E : Ext Scan Cloud) (P : Params)
    (bag : List SerializedBagMessage) (s : LoopState) :
    (loop E P bag s).final.cnt = s.cnt + (replay (loop E P bag s).trace).length := by
  induction bag generalizing s with
  | nil => simp [loop, replay]
  | cons m rest ih =>
    by_cases hm : m.topic_name = P.target_topic
    · cases hx : E.deserialize_message m.serialized_data with
      | none => simp [loop_throw E P m rest s hm hx, replay]
      | some x =>
        by_cases hb : P.out_num ≤ ((stepState P s).out_cnt : Int)
        · rw [loop_brk E P m rest s x hm hx hb]
          simp [replay_stepEvents, stepState]
        · rw [loop_next E P m rest s x hm hx hb]
          simp only [replay_append, replay_stepEvents, ih]
          simp [stepState]; omega
    · rw [loop_other E P m rest s hm]
      exact ih s

theorem loop_passes_replay {Scan Cloud : Type} (E : Ext Scan Cloud) (P : Params)
    (bag : List SerializedBagMessage) (s : LoopState) :
    replay (loop E P bag s).trace = matched P ((loop E P bag s).passes.map Prod.fst) := by
  induction bag generalizing s with
  | nil => simp [loop, replay, matched]
  | cons m rest ih =>
    by_cases hm : m.topic_name = P.target_topic
    · cases hx : E.deserialize_message m.serialized_data with
      | none => simp [loop_throw E P m rest s hm hx, replay, matched]
      | some x =>
        by_cases hb : P.out_num ≤ ((stepState P s).out_cnt : Int)
        · rw [loop_brk E P m rest s x hm hx hb]
          simp [replay_stepEvents, matched, hm]
        · rw [loop_next E P m rest s x hm hx hb]
          simp only [replay_append, replay_stepEvents, ih]
          simp [matched, hm]
    · rw [loop_other E P m rest s hm]
      simp [matched, hm]
      exact ih s

theorem loop_opens_closed {Scan Cloud : Type} (E : Ext Scan Cloud) (P : Params)
    (bag : List SerializedBagMessage) (s : LoopState) (hs : s.needs_open = false) :
    opens (loop E P bag s).trace = [] := by
  induction bag generalizing s with
  | nil => simp [loop, opens]
  | cons m rest ih =>
    by_cases hm : m.topic_name = P.target_topic
    · cases hx : E.deserialize_message m.serialized_data with
      | none => simp [loop_throw E P m rest s hm hx, opens]
      | some x =>
        by_cases hb : P.out_num ≤ ((stepState P s).out_cnt : Int)
        · rw [loop_brk E P m rest s x hm hx hb]
          simp [opens_stepEvents, hs]
        · rw [loop_next E P m rest s x hm hx hb]
          simp only [opens_append, opens_stepEvents, hs]
          simp [ih (stepState P s) rfl]
    · rw [loop_other E P m rest s hm]
      exact ih s hs

theorem loop_opens_le {Scan Cloud : Type} (E : Ext Scan Cloud) (P : Params)
    (bag : List SerializedBagMessage) (s : LoopState) :
    (opens (loop E P bag s).trace).length ≤ 1 := by
  induction bag generalizing s with
  | nil => simp [loop, opens]
  | cons m rest ih =>
    by_cases hm : m.topic_name = P.target_topic
    · cases hx : E.deserialize_message m.serialized_data with
      | none => simp [loop_throw E P m rest s hm hx, opens]
      | some x =>
        by_cases hb : P.out_num ≤ ((stepState P s).out_cnt : Int)
        · rw [loop_brk E P m rest s x hm hx hb]
          simp only [opens_stepEvents]
          split <;> simp
        · rw [loop_next E P m rest s x hm hx hb]
          simp only [opens_append, opens_stepEvents,
            loop_opens_closed E P rest (stepState P s) rfl]
          split <;> simp
    · rw [loop_other E P m rest s hm]
      exact ih s

theorem loop_nomatch {Scan Cloud : Type} (E : Ext Scan Cloud) (P : Params)
    (pre bag : List SerializedBagMessage) (s : LoopState)
    (hpre : ∀ x ∈ pre, x.topic_name ≠ P.target_topic) :
    (loop E P (pre ++ bag) s).trace = (loop E P bag s).trace := by
  induction pre with
  | nil => rfl
  | cons m rest ih =>
    rw [List.cons_append, loop_other E P m (rest ++ bag) s (hpre m (List.mem_cons_self _ _))]
    exact ih (fun x hx => hpre x (List.mem_cons_of_mem _ hx))

theorem loop_nomatch_nil {Scan Cloud : Type} (E : Ext Scan Cloud) (P : Params)
    (bag : List SerializedBagMessage) (s : LoopState) (h : matched P bag = []) :
    (loop E P bag s).trace = [] ∧ (loop E P bag s).exit = Exit.exhausted := by
  induction bag with
  | nil => simp [loop]
  | cons m rest ih =>
    by_cases hm : m.topic_name = P.target_topic
    · rw [matched_cons_match P m rest hm] at h
      exact absurd h (List.cons_ne_nil _ _)
    · rw [matched_cons_other P m rest hm] at h
      rw [loop_other E P m rest s hm]
      exact ih h

theorem loop_exit {Scan Cloud : Type} (E : Ext Scan Cloud) (P : Params)
    (bag : List SerializedBagMessage) (s : LoopState) (hdes : Deserializes E P bag) :
    (loop E P bag s).exit =
      if quota P s ≤ (matched P bag).length then Exit.capped else Exit.exhausted := by
  induction bag generalizing s with
  | nil =>
    have hq : 0 < quota P s := by unfold quota; split_ifs <;> omega
    have h : ¬ quota P s ≤ (matched P []).length := by
      simp only [matched, List.filter_nil, List.length_nil]; omega
    rw [if_neg h]
    rfl
  | cons m rest ih =>
    have hrest : Deserializes E P rest := fun x hx => hdes x (List.mem_cons_of_mem _ hx)
    by_cases hm : m.topic_name = P.target_topic
    · have hd := hdes m (List.mem_cons_self _ _) hm
      obtain ⟨x, hx⟩ := Option.isSome_iff_exists.mp hd
      rw [matched_cons_match P m rest hm]
      by_cases hb : P.out_num ≤ ((stepState P s).out_cnt : Int)
      · rw [loop_brk E P m rest s x hm hx hb]
        have hq : quota P s = 1 := by
          unfold quota; unfold stepState at hb; simp only at hb
          split_ifs at hb ⊢ <;> omega
        simp [hq]
      · rw [loop_next E P m rest s x hm hx hb]
        have hq : quota P s = quota P (stepState P s) + 1 := by
          unfold quota; unfold stepState at hb ⊢; simp only at hb ⊢
          split_ifs at hb ⊢ <;> omega
        simp only [ih _ hrest, hq, List.length_cons, Nat.add_le_add_iff_right]
    · rw [loop_other E P m rest s hm, matched_cons_other P m rest hm]
      exact ih s hrest

theorem loop_passes {Scan Cloud : Type} (E : Ext Scan Cloud) (P : Params)
    (bag : List SerializedBagMessage) (s : LoopState)
    (hs : (s.out_cnt : Int) < P.out_num) (i : Nat) (m : SerializedBagMessage)
    (st : LoopState) (hi : (loop E P bag s).passes[i]? = some (m, st)) :
    bag[i]? = some m ∧ (st.out_cnt : Int) ≤ P.out_num ∧
      ((st.out_cnt : Int) = P.out_num →
        (loop E P bag s).passes.length = i + 1 ∧ (loop E P bag s).unread = bag.drop (i + 1) ∧
        (loop E P bag s).exit = Exit.capped ∧ (loop E P bag s).final = st) := by
  induction bag generalizing s i with
  | nil => simp [loop] at hi
  | cons b rest ih =>
    have hstep : ((stepState P s).out_cnt : Int) ≤ P.out_num := by
      simp only [stepState]; split_ifs <;> omega
    by_cases hm : b.topic_name = P.target_topic
    · cases hx : E.deserialize_message b.serialized_data with
      | none => simp [loop_throw E P b rest s hm hx] at hi
      | some x =>
        by_cases hb : P.out_num ≤ ((stepState P s).out_cnt : Int)
        · rw [loop_brk E P b rest s x hm hx hb] at hi ⊢
          cases i with
          | zero =>
            simp only [List.getElem?_cons_zero, Option.some.injEq, Prod.mk.injEq] at hi
            obtain ⟨h1, h2⟩ := hi
            subst h1 h2
            simp [hstep]
          | succ j => simp at hi
        · rw [loop_next E P b rest s x hm hx hb] at hi ⊢
          cases i with
          | zero =>
            simp only [List.getElem?_cons_zero, Option.some.injEq, Prod.mk.injEq] at hi
            obtain ⟨h1, h2⟩ := hi
            subst h1 h2
            refine ⟨by simp, hstep, fun h => absurd (le_of_eq h.symm) hb⟩
          | succ j =>
            simp only [List.getElem?_cons_succ] at hi
            have := ih (stepState P s) (by omega) j hi
            simpa using this
    · rw [loop_other E P b rest s hm] at hi ⊢
      cases i with
      | zero =>
        simp only [List.getElem?_cons_zero, Option.some.injEq, Prod.mk.injEq] at hi
        obtain ⟨h1, h2⟩ := hi
        subst h1 h2
        refine ⟨by simp, le_of_lt hs, fun h => absurd h (ne_of_lt hs)⟩
      | succ j =>
        simp only [List.getElem?_cons_succ] at hi
        have := ih s hs j hi
        simpa using this

theorem loop_append_throw {Scan Cloud : Type} (E : Ext Scan Cloud) (P : Params)
    (pre post : List SerializedBagMessage) (bad : SerializedBagMessage) (s : LoopState)
    (hm : bad.topic_name = P.target_topic)
    (hx : E.deserialize_message bad.serialized_data = none) :
    (loop E P (pre ++ bad :: post) s).trace = (loop E P pre s).trace ∧
    (loop E P (pre ++ bad :: post) s).passes = (loop E P pre s).passes ∧
    (loop E P (pre ++ bad :: post) s).final = (loop E P pre s).final ∧
    (loop E P (pre ++ bad :: post) s).exit ≠ Exit.exhausted ∧
    ((loop E P pre s).exit = Exit.exhausted →
      (loop E P (pre ++ bad :: post) s).exit = Exit.threw ∧
      (loop E P (pre ++ bad :: post) s).unread = post) := by
  induction pre generalizing s with
  | nil =>
    rw [List.nil_append, loop_throw E P bad post s hm hx]
    simp [loop]
  | cons b rest ih =>
    rw [List.cons_append]
    by_cases hb : b.topic_name = P.target_topic
    · cases hy : E.deserialize_message b.serialized_data with
      | none => simp [loop_throw E P b _ s hb hy]
      | some y =>
        by_cases hc : P.out_num ≤ ((stepState P s).out_cnt : Int)
        · simp [loop_brk E P b _ s y hb hy hc]
        · rw [loop_next E P b _ s y hb hy hc, loop_next E P b _ s y hb hy hc]
          have := ih (stepState P s)
          simpa using this
    · rw [loop_other E P b _ s hb, loop_other E P b _ s hb]
      have := ih s
      simpa using this

theorem toDigitsAux_acc (fuel n : Nat) (acc : Str) :
    toDigitsAux fuel n acc = toDigitsAux fuel n [] ++ acc := by
  induction fuel generalizing n acc with
  | zero => simp [toDigitsAux]
  | succ f ih =>
    simp only [toDigitsAux]
    split
    · simp
    · rw [ih (n / 10) (digitChar (n % 10) :: acc), ih (n / 10) [digitChar (n % 10)]]
      simp

theorem toDigitsAux_fuel_succ (fuel n : Nat) (acc : Str) (h : n < fuel) :
    toDigitsAux (fuel + 1) n acc = toDigitsAux fuel n acc := by
  induction fuel generalizing n acc with
  | zero => omega
  | succ f ih =>
    have e1 : toDigitsAux (f + 1 + 1) n acc =
        if n < 10 then digitChar n :: acc
        else toDigitsAux (f + 1) (n / 10) (digitChar (n % 10) :: acc) := rfl
    have e2 : toDigitsAux (f + 1) n acc =
        if n < 10 then digitChar n :: acc
        else toDigitsAux f (n / 10) (digitChar (n % 10) :: acc) := rfl
    rw [e1, e2]
    split
    · rfl
    · exact ih (n / 10) _ (by omega)

theorem toDigitsAux_fuel (fuel n : Nat) (acc : Str) (h : n < fuel) :
    toDigitsAux fuel n acc = toDigitsAux (n + 1) n acc := by
  induction fuel with
  | zero => omega
  | succ f ih =>
    by_cases hf : n < f
    · rw [toDigitsAux_fuel_succ f n acc hf]
      exact ih hf
    · have : f = n := by omega
      rw [this]

theorem natToString_small (n : Nat) (h : n < 10) : natToString n = [digitChar n] := by
  simp [natToString, toDigitsAux, h]

theorem natToString_large (n : Nat) (h : ¬ n < 10) :
    natToString n = natToString (n / 10) ++ [digitChar (n % 10)] := by
  unfold natToString
  rw [toDigitsAux, if_neg h, toDigitsAux_acc, toDigitsAux_fuel n (n / 10) [] (by omega)]

theorem natToString_length_pos (n : Nat) : 0 < (natToString n).length := by
  by_cases h : n < 10
  · simp [natToString_small n h]
  · simp [natToString_large n h]

theorem digitChar_lt (a b : Nat) (hab : a < b) (hb : b < 10) : digitChar a < digitChar b := by
  interval_cases b <;> interval_cases a <;> decide

theorem string_less_append_left (a x y : Str) :
    string_less (a ++ x) (a ++ y) = string_less x y := by
  induction a with
  | nil => rfl
  | cons c cs ih =>
    have hc : ¬ c < c := lt_irrefl c
    simp [string_less, hc, ih]

theorem string_less_append_right (a b x y : Str) (hlen : a.length = b.length)
    (h : string_less a b = true) : string_less (a ++ x) (b ++ y) = true := by
  induction a generalizing b with
  | nil =>
    cases b with
    | nil => simp [string_less] at h
    | cons d ds => simp at hlen
  | cons c cs ih =>
    cases b with
    | nil => simp at hlen
    | cons d ds =>
      simp only [List.length_cons, Nat.add_right_cancel_iff] at hlen
      simp only [string_less, List.cons_append] at h ⊢
      by_cases h1 : c < d
      · simp [h1]
      · by_cases h2 : d < c
        · simp [h1, h2] at h
        · simp only [h1, h2, if_false] at h ⊢
          exact ih ds hlen h

theorem natToString_less (n2 : Nat) :
    ∀ n1 : Nat, n1 < n2 → (natToString n1).length = (natToString n2).length →
      string_less (natToString n1) (natToString n2) = true := by
  induction n2 using Nat.strong_induction_on with
  | _ n2 ih =>
    intro n1 hlt hlen
    by_cases h2 : n2 < 10
    · have h1 : n1 < 10 := by omega
      rw [natToString_small n1 h1, natToString_small n2 h2]
      simp [string_less, digitChar_lt n1 n2 hlt h2]
    · by_cases h1 : n1 < 10
      · rw [natToString_small n1 h1, natToString_large n2 h2] at hlen
        have := natToString_length_pos (n2 / 10)
        simp only [List.length_append, List.length_singleton] at hlen
        omega
      · rw [natToString_large n1 h1, natToString_large n2 h2] at hlen ⊢
        simp only [List.length_append, List.length_singleton, Nat.add_right_cancel_iff] at hlen
        by_cases hq : n1 / 10 < n2 / 10
        · exact string_less_append_right _ _ _ _ hlen
            (ih (n2 / 10) (by omega) (n1 / 10) hq hlen)
        · have heq : n1 / 10 = n2 / 10 := by omega
          rw [heq, string_less_append_left]
          have : digitChar (n1 % 10) < digitChar (n2 % 10) :=
            digitChar_lt _ _ (by omega) (by omega)
          simp [string_less, this]

theorem to_string_nonneg (t : Int) (h : 0 ≤ t) : to_string t = natToString t.toNat := by
  simp [to_string, not_lt.mpr h]

theorem loop_final_le {Scan Cloud : Type} (E : Ext Scan Cloud) (P : Params)
    (bag : List SerializedBagMessage) (s : LoopState)
    (hs : (s.out_cnt : Int) < P.out_num) :
    ((loop E P bag s).final.out_cnt : Int) ≤ P.out_num := by
  induction bag generalizing s with
  | nil => simpa [loop] using le_of_lt hs
  | cons b rest ih =>
    have hstep : ((stepState P s).out_cnt : Int) ≤ P.out_num := by
      simp only [stepState]; split_ifs <;> omega
    by_cases hm : b.topic_name = P.target_topic
    · cases hx : E.deserialize_message b.serialized_data with
      | none =>
        rw [loop_throw E P b rest s hm hx]
        exact le_of_lt hs
      | some x =>
        by_cases hb : P.out_num ≤ ((stepState P s).out_cnt : Int)
        · rw [loop_brk E P b rest s x hm hx hb]
          exact hstep
        · rw [loop_next E P b rest s x hm hx hb]
          exact ih (stepState P s) (by omega)
    · rw [loop_other E P b rest s hm]
      exact ih s hs

theorem ReadBag_trace {Scan Cloud : Type} (E : Ext Scan Cloud) (P : Params)
    (bag : List SerializedBagMessage) :
    (ReadBag E P bag).trace = Event.create_directories (o_dir P) :: (loop E P bag init).trace :=
  rfl

theorem ReadBag_replay {Scan Cloud : Type} (E : Ext Scan Cloud) (P : Params)
    (bag : List SerializedBagMessage) :
    replay (ReadBag E P bag).trace = replay (loop E P bag init).trace := rfl

theorem ReadBag_files {Scan Cloud : Type} (E : Ext Scan Cloud) (P : Params)
    (bag : List SerializedBagMessage) :
    files (ReadBag E P bag).trace = files (loop E P bag init).trace := rfl

theorem ReadBag_opens {Scan Cloud : Type} (E : Ext Scan Cloud) (P : Params)
    (bag : List SerializedBagMessage) :
    opens (ReadBag E P bag).trace = opens (loop E P bag init).trace := rfl

theorem quota_init (P : Params) :
    quota P init = if P.out_num ≤ 0 then 1 else P.skip_num.toNat + P.out_num.toNat := by
  simp [quota, init]

theorem matchedBeforeThrow_other {Scan Cloud : Type} (E : Ext Scan Cloud) (P : Params)
    (m : SerializedBagMessage) (rest : List SerializedBagMessage)
    (hm : m.topic_name ≠ P.target_topic) :
    matchedBeforeThrow E P (m :: rest) = matchedBeforeThrow E P rest := by
  simp only [matchedBeforeThrow, matched_cons_other P m rest hm]

theorem matchedBeforeThrow_some {Scan Cloud : Type} (E : Ext Scan Cloud) (P : Params)
    (m : SerializedBagMessage) (rest : List SerializedBagMessage) (x : Scan)
    (hm : m.topic_name = P.target_topic)
    (hx : E.deserialize_message m.serialized_data = some x) :
    matchedBeforeThrow E P (m :: rest) = m :: matchedBeforeThrow E P rest := by
  simp only [matchedBeforeThrow, matched_cons_match P m rest hm]
  rw [List.takeWhile_cons_of_pos (by simp [hx])]

theorem matchedBeforeThrow_none {Scan Cloud : Type} (E : Ext Scan Cloud) (P : Params)
    (m : SerializedBagMessage) (rest : List SerializedBagMessage)
    (hm : m.topic_name = P.target_topic)
    (hx : E.deserialize_message m.serialized_data = none) :
    matchedBeforeThrow E P (m :: rest) = [] := by
  simp only [matchedBeforeThrow, matched_cons_match P m rest hm]
  rw [List.takeWhile_cons_of_neg (by simp [hx])]

theorem matchedBeforeThrow_isSome {Scan Cloud : Type} (E : Ext Scan Cloud) (P : Params)
    (bag : List SerializedBagMessage) :
    ∀ m ∈ matchedBeforeThrow E P bag,
      (E.deserialize_message m.serialized_data).isSome = true := by
  intro m hm
  have h : m ∈ List.takeWhile
      (fun a : SerializedBagMessage => (E.deserialize_message a.serialized_data).isSome)
      (matched P bag) := hm
  have h1 := List.mem_takeWhile_imp h
  simpa using h1

theorem takeWhile_take_of_forall {α : Type} (p : α → Bool) (l : List α) (k : Nat)
    (h : ∀ a ∈ l.take k, p a = true) : (l.takeWhile p).take k = l.take k := by
  induction l generalizing k with
  | nil => simp
  | cons a l ih =>
    cases k with
    | zero => simp
    | succ k =>
      have ha : p a = true := h a (by simp)
      rw [List.takeWhile_cons_of_pos ha, List.take_succ_cons, List.take_succ_cons,
        ih k (fun b hb => h b (by simp [hb]))]

theorem loop_files_total {Scan Cloud : Type} (E : Ext Scan Cloud) (P : Params)
    (bag : List SerializedBagMessage) (s : LoopState) :
    files (loop E P bag s).trace =
      (((matchedBeforeThrow E P bag).take (quota P s)).drop
        (P.skip_num - s.cnt).toNat).filterMap (pcdOf E P) := by
  induction bag generalizing s with
  | nil => simp [loop, matchedBeforeThrow, matched, files]
  | cons m rest ih =>
    by_cases hm : m.topic_name = P.target_topic
    · cases hx : E.deserialize_message m.serialized_data with
      | none =>
        rw [loop_throw E P m rest s hm hx, matchedBeforeThrow_none E P m rest hm hx]
        simp [files]
      | some x =>
        have hp : pcdOf E P m = some (o_dir P ++ [fn m.time_stamp],
            if P.only_xyz then E.copyPointCloud (E.ConvertScanToPointcloud x)
            else E.ConvertScanToPointcloud x) := by simp [pcdOf, hx]
        rw [matchedBeforeThrow_some E P m rest x hm hx]
        by_cases hb : P.out_num ≤ ((stepState P s).out_cnt : Int)
        · rw [loop_brk E P m rest s x hm hx hb]
          have hq : quota P s = 1 := by
            unfold quota; unfold stepState at hb; simp only at hb
            split_ifs at hb ⊢ <;> omega
          rw [hq, files_stepEvents E P m x s hx]
          by_cases hs : P.skip_num < ((s.cnt + 1 : Nat) : Int)
          · have h0 : (P.skip_num - s.cnt).toNat = 0 := by omega
            rw [if_pos hs, h0, hp]
            simp [List.filterMap_cons_some hp]
          · have h0 : (P.skip_num - s.cnt).toNat = (P.skip_num - s.cnt).toNat - 1 + 1 := by
              omega
            rw [if_neg hs, h0]
            simp
        · rw [loop_next E P m rest s x hm hx hb]
          have hq : quota P s = quota P (stepState P s) + 1 := by
            unfold quota; unfold stepState at hb ⊢; simp only at hb ⊢
            split_ifs at hb ⊢ <;> omega
          simp only [files_append]
          rw [hq, List.take_succ_cons, ih, files_stepEvents E P m x s hx]
          by_cases hs : P.skip_num < ((s.cnt + 1 : Nat) : Int)
          · have h0 : (P.skip_num - s.cnt).toNat = 0 := by omega
            have h1 : (P.skip_num - ((stepState P s).cnt : Int)).toNat = 0 := by
              simp only [stepState]; omega
            rw [if_pos hs, h0, h1, List.drop_zero, List.drop_zero,
              List.filterMap_cons_some hp, hp]
            rfl
          · have h0 : (P.skip_num - s.cnt).toNat =
                (P.skip_num - ((stepState P s).cnt : Int)).toNat + 1 := by
              simp only [stepState]; omega
            rw [if_neg hs, h0, List.drop_succ_cons]
            rfl
    · rw [loop_other E P m rest s hm, matchedBeforeThrow_other E P m rest hm]
      exact ih s

theorem target_topic_name_eq_spec (topic : Str) :
    target_topic_name topic = spec_sanitized topic := by
  cases topic with
  | nil => rfl
  | cons c cs =>
    by_cases hc : c = '/'
    · subst hc
      simp [target_topic_name, spec_sanitized, regex_replace_slash]
    · simp only [target_topic_name, spec_sanitized, regex_replace_slash]
      split
      · rename_i h
        simp at h
        exact absurd h hc
      · split
        · rename_i h
          simp at h
          exact absurd h.1 hc
        · rfl

theorem pcdOf_paths_spec {Scan Cloud : Type} (E : Ext Scan Cloud) (P : Params)
    (w : List SerializedBagMessage)
    (hw : ∀ m ∈ w, (E.deserialize_message m.serialized_data).isSome = true) :
    (w.filterMap (pcdOf E P)).map Prod.fst =
      w.map (fun m => [P.out_path, spec_sanitized P.target_topic,
        to_string m.time_stamp ++ ['.', 'p', 'c', 'd']]) := by
  induction w with
  | nil => rfl
  | cons m rest ih =>
    obtain ⟨x, hx⟩ := Option.isSome_iff_exists.mp (hw m (List.mem_cons_self _ _))
    have hp : pcdOf E P m = some (o_dir P ++ [fn m.time_stamp],
        if P.only_xyz then E.copyPointCloud (E.ConvertScanToPointcloud x)
        else E.ConvertScanToPointcloud x) := by simp [pcdOf, hx]
    rw [List.filterMap_cons_some hp, List.map_cons, List.map_cons,
      ih (fun y hy => hw y (List.mem_cons_of_mem _ hy))]
    simp [o_dir, fn, target_topic_name_eq_spec]

theorem loop_consumed {Scan Cloud : Type} (E : Ext Scan Cloud) (P : Params)
    (bag : List SerializedBagMessage) (s : LoopState) :
    ∃ consumed : List SerializedBagMessage,
      bag = consumed ++ (loop E P bag s).unread ∧
      ((loop E P bag s).exit ≠ Exit.threw →
        consumed = (loop E P bag s).passes.map Prod.fst) ∧
      ((loop E P bag s).exit = Exit.threw →
        ∃ bad : SerializedBagMessage, bad.topic_name = P.target_topic ∧
          E.deserialize_message bad.serialized_data = none ∧
          consumed = (loop E P bag s).passes.map Prod.fst ++ [bad]) := by
  induction bag generalizing s with
  | nil => exact ⟨[], by simp [loop]⟩
  | cons m rest ih =>
    by_cases hm : m.topic_name = P.target_topic
    · cases hx : E.deserialize_message m.serialized_data with
      | none =>
        rw [loop_throw E P m rest s hm hx]
        exact ⟨[m], by simp, by simp, fun _ => ⟨m, hm, hx, by simp⟩⟩
      | some x =>
        by_cases hb : P.out_num ≤ ((stepState P s).out_cnt : Int)
        · rw [loop_brk E P m rest s x hm hx hb]
          exact ⟨[m], by simp, by simp, by simp⟩
        · rw [loop_next E P m rest s x hm hx hb]
          obtain ⟨c, h1, h2, h3⟩ := ih (stepState P s)
          refine ⟨m :: c, by simp [← h1], ?_, ?_⟩
          · intro h
            simp [h2 h]
          · intro h
            obtain ⟨bad, hb1, hb2, hb3⟩ := h3 h
            exact ⟨bad, hb1, hb2, by simp [hb3]⟩
    · rw [loop_other E P m rest s hm]
      obtain ⟨c, h1, h2, h3⟩ := ih s
      refine ⟨m :: c, by simp [← h1], ?_, ?_⟩
      · intro h
        simp [h2 h]
      · intro h
        obtain ⟨bad, hb1, hb2, hb3⟩ := h3 h
        exact ⟨bad, hb1, hb2, by simp [hb3]⟩

theorem loop_no_throw {Scan Cloud : Type} (E : Ext Scan Cloud) (P : Params)
    (bag : List SerializedBagMessage) (s : LoopState) (hdes : Deserializes E P bag) :
    (loop E P bag s).exit ≠ Exit.threw := by
  rw [loop_exit E P bag s hdes]
  split <;> simp

/-! ## The claims -/

/-- Counterexample to C1: with `skip_num = 0` and `out_num = 3`, the second of three
records on the target topic does not deserialize: the matched records at positions 1 to 3
are the three records, `ReadBag` is left by the exception at the second one and the only
point-cloud file written is that of the first. -/
theorem C1_counterexample :
    ((matched (params0 0 3) [scanMsg 1, badMsg 2, scanMsg 3]).drop 0).take 3 =
      [scanMsg 1, badMsg 2, scanMsg 3] ∧
    (files (ReadBag ext0 (params0 0 3) [scanMsg 1, badMsg 2, scanMsg 3]).trace).map Prod.fst =
      [["out".toList, "scan".toList, "1.pcd".toList]] ∧
    (ReadBag ext0 (params0 0 3) [scanMsg 1, badMsg 2, scanMsg 3]).exit = Exit.threw := by
  decide

/-- C1, amended: for every bag, every `skip_num >= 0` and every `out_num >= 1`, the
point-cloud files written by `ReadBag` are, in source order and one per record, the files
of the records at the 1-based positions `skip_num+1` to `skip_num+out_num` (those of
these positions that exist) among the matched records in front of the first matched record
at which `deserialize_message` throws; the file of a record with time stamp `t` is
`<out_path>/<sanitized target_topic>/<t>.pcd`.  When the first `skip_num+out_num` matched
records deserialize, these are the positions among all matched records of the bag.
(`Int.toNat` of a negative `skip_num` is `0`: a negative `skip_num` skips nothing.) -/
theorem C1_files_are_window_before_throw {Scan Cloud : Type} (E : Ext Scan Cloud)
    (P : Params) (bag : List SerializedBagMessage) (hout : 1 ≤ P.out_num) :
    files (ReadBag E P bag).trace =
      (((matchedBeforeThrow E P bag).drop P.skip_num.toNat).take P.out_num.toNat).filterMap
        (pcdOf E P) ∧
    (files (ReadBag E P bag).trace).map Prod.fst =
      (((matchedBeforeThrow E P bag).drop P.skip_num.toNat).take P.out_num.toNat).map
        (fun m => [P.out_path, spec_sanitized P.target_topic,
          to_string m.time_stamp ++ ['.', 'p', 'c', 'd']]) ∧
    ((∀ m ∈ (matched P bag).take (P.skip_num.toNat + P.out_num.toNat),
        (E.deserialize_message m.serialized_data).isSome = true) →
      ((matchedBeforeThrow E P bag).drop P.skip_num.toNat).take P.out_num.toNat =
        ((matched P bag).drop P.skip_num.toNat).take P.out_num.toNat) := by
  have hq : quota P init = P.skip_num.toNat + P.out_num.toNat := by
    rw [quota_init, if_neg (by omega)]
  have h0 : (P.skip_num - ((init.cnt : Nat) : Int)).toNat = P.skip_num.toNat := by
    simp [init]
  have hfiles : files (ReadBag E P bag).trace =
      (((matchedBeforeThrow E P bag).drop P.skip_num.toNat).take P.out_num.toNat).filterMap
        (pcdOf E P) := by
    rw [ReadBag_files, loop_files_total E P bag init, hq, h0, List.drop_take,
      Nat.add_sub_cancel_left]
  refine ⟨hfiles, ?_, ?_⟩
  · rw [hfiles]
    apply pcdOf_paths_spec
    intro m hm
    exact matchedBeforeThrow_isSome E P bag m
      (List.mem_of_mem_drop (List.mem_of_mem_take hm))
  · intro h
    rw [List.take_drop, List.take_drop]
    unfold matchedBeforeThrow
    rw [takeWhile_take_of_forall _ _ _ h]

/-- Witness of the amended C1: ten records on the target topic, two on another and,
behind them, a record on the target topic that does not deserialize; `skip_num = 3`,
`out_num = 2`: exactly two files, those of matched records 4 and 5. -/
theorem C1_files_are_window_before_throw_witness :
    files (ReadBag ext0 (params0 3 2) (bag10 ++ [badMsg 113])).trace =
      [(["out".toList, "scan".toList, "105.pcd".toList], [1, 2, 3, 4]),
       (["out".toList, "scan".toList, "106.pcd".toList], [1, 2, 3, 4])] ∧
    (matched (params0 3 2) (bag10 ++ [badMsg 113]))[3]? = some (scanMsg 105) ∧
    (matched (params0 3 2) (bag10 ++ [badMsg 113]))[4]? = some (scanMsg 106) :=
  ⟨(C1_files_are_window_before_throw ext0 (params0 3 2) (bag10 ++ [badMsg 113])
      (by decide)).1.trans (by decide), by decide, by decide⟩

/-- Counterexample to C2: ten records on the target topic, two on another, `skip_num = 3`,
`out_num = 2`: `ReadBag` leaves the loop at `break` after matched record 5, the replay log
has five records and the matched record with time stamp 107 is not in it. -/
theorem C2_counterexample :
    (ReadBag ext0 (params0 3 2) bag10).exit = Exit.capped ∧
    (matched (params0 3 2) bag10).length = 10 ∧
    (replay (ReadBag ext0 (params0 3 2) bag10).trace).length = 5 ∧
    scanMsg 107 ∈ matched (params0 3 2) bag10 ∧
    scanMsg 107 ∉ replay (ReadBag ext0 (params0 3 2) bag10).trace := by
  decide

/-- C2, amended: for a bag whose records on the target topic deserialize and every
configuration, the replay log holds exactly the first `K` matched records in source order
(all of them when there are fewer), where `K = 1` when `out_num <= 0` and
`K = max(skip_num, 0) + out_num` otherwise. -/
theorem C2_replay_is_matched_up_to_cap {Scan Cloud : Type} (E : Ext Scan Cloud)
    (P : Params) (bag : List SerializedBagMessage) (hdes : Deserializes E P bag) :
    replay (ReadBag E P bag).trace =
      (matched P bag).take
        (if P.out_num ≤ 0 then 1 else P.skip_num.toNat + P.out_num.toNat) := by
  rw [ReadBag_replay, loop_replay E P bag init hdes, quota_init]

/-- Witness of the amended C2 on the bag of ten matched records with `skip_num = 3` and
`out_num = 2`: the replay log holds the first five matched records. -/
theorem C2_replay_is_matched_up_to_cap_witness :
    replay (ReadBag ext0 (params0 3 2) bag10).trace =
      [scanMsg 101, scanMsg 102, scanMsg 104, scanMsg 105, scanMsg 106] :=
  (C2_replay_is_matched_up_to_cap ext0 (params0 3 2) bag10 (by decide)).trans (by decide)

/-- C3: for every bag, every `skip_num` and every `out_num >= 1`, after every pass of
the loop `out_cnt <= out_num` (pass `i` is the pass for record `i` of the bag), the same
holds when the loop is left, and a pass that ends with `out_cnt = out_num` is the last
one: the loop is left at `break` and no record after record `i` is read. -/
theorem C3_out_cnt_bounded_and_stops_at_cap {Scan Cloud : Type} (E : Ext Scan Cloud)
    (P : Params) (bag : List SerializedBagMessage) (hout : 1 ≤ P.out_num) :
    ((ReadBag E P bag).final.out_cnt : Int) ≤ P.out_num ∧
    ∀ (i : Nat) (m : SerializedBagMessage) (st : LoopState),
      (ReadBag E P bag).passes[i]? = some (m, st) →
        bag[i]? = some m ∧ (st.out_cnt : Int) ≤ P.out_num ∧
        ((st.out_cnt : Int) = P.out_num →
          (ReadBag E P bag).passes.length = i + 1 ∧
          (ReadBag E P bag).unread = bag.drop (i + 1) ∧
          (ReadBag E P bag).exit = Exit.capped ∧
          (ReadBag E P bag).final = st) := by
  have h0 : ((init.out_cnt : Nat) : Int) < P.out_num := by simp [init]; omega
  exact ⟨loop_final_le E P bag init h0, fun i m st hi => loop_passes E P bag init h0 i m st hi⟩

/-- Witness of C3 on the bag of ten matched records with `skip_num = 3`, `out_num = 2`:
the pass for the sixth record of the bag (matched record 5) ends with `out_cnt = 2`, it is
the last pass and the six records behind it are never read. -/
theorem C3_out_cnt_bounded_and_stops_at_cap_witness :
    (ReadBag ext0 (params0 3 2) bag10).passes[5]? = some (scanMsg 106, ⟨5, 2, false⟩) ∧
    (ReadBag ext0 (params0 3 2) bag10).passes.length = 6 ∧
    (ReadBag ext0 (params0 3 2) bag10).unread =
      [scanMsg 107, otherMsg 108, scanMsg 109, scanMsg 110, scanMsg 111, scanMsg 112] ∧
    (ReadBag ext0 (params0 3 2) bag10).exit = Exit.capped :=
  have h := ((C3_out_cnt_bounded_and_stops_at_cap ext0 (params0 3 2) bag10 (by decide)).2
    5 (scanMsg 106) ⟨5, 2, false⟩ (by decide)).2.2 (by decide)
  ⟨by decide, h.1, h.2.1.trans (by decide), h.2.2.1⟩

/-- Counterexample to C4: with `out_num = 0` and `skip_num = 0` on the bag of ten matched
records, `ReadBag` leaves the loop at `break` in the pass for the first matched record:
the replay log has one record and one point-cloud file is written. -/
theorem C4_counterexample :
    (params0 0 0).out_num = 0 ∧
    (matched (params0 0 0) bag10).length = 10 ∧
    replay (ReadBag ext0 (params0 0 0) bag10).trace = [scanMsg 101] ∧
    (files (ReadBag ext0 (params0 0 0) bag10).trace).length = 1 ∧
    (ReadBag ext0 (params0 0 0) bag10).exit = Exit.capped := by
  decide

/-- C4, amended: when `out_num = 0`, for a bag whose records on the target topic
deserialize, `ReadBag` writes only the first matched record to the replay log, writes the
point-cloud file of that record when `skip_num < 1` and no file otherwise, and leaves the
loop at `break` in the pass for the first matched record; the reader is exhausted only
when no record matches. -/
theorem C4_out_num_zero_stops_at_first_match {Scan Cloud : Type} (E : Ext Scan Cloud)
    (P : Params) (bag : List SerializedBagMessage) (hzero : P.out_num = 0)
    (hdes : Deserializes E P bag) :
    replay (ReadBag E P bag).trace = (matched P bag).take 1 ∧
    files (ReadBag E P bag).trace =
      (if P.skip_num < 1 then ((matched P bag).take 1).filterMap (pcdOf E P) else []) ∧
    (ReadBag E P bag).exit =
      (if matched P bag = [] then Exit.exhausted else Exit.capped) := by
  have hq : quota P init = 1 := by rw [quota_init, if_pos (le_of_eq hzero)]
  refine ⟨?_, ?_, ?_⟩
  · rw [ReadBag_replay, loop_replay E P bag init hdes, hq]
  · rw [ReadBag_files, loop_files E P bag init hdes, hq]
    have h0 : (P.skip_num - ((init.cnt : Nat) : Int)).toNat = P.skip_num.toNat := by
      simp [init]
    rw [h0]
    by_cases hs : P.skip_num < 1
    · have : P.skip_num.toNat = 0 := by omega
      rw [if_pos hs, this, List.drop_zero]
    · have hlen : ((matched P bag).take 1).length ≤ P.skip_num.toNat := by
        have := List.length_take_le 1 (matched P bag)
        omega
      rw [if_neg hs, List.drop_eq_nil_of_le hlen]
      rfl
  · show (loop E P bag init).exit = _
    rw [loop_exit E P bag init hdes, hq]
    cases hmt : matched P bag with
    | nil => simp
    | cons a l => simp

/-- Witness of the amended C4 on the bag of ten matched records with `skip_num = 3`. -/
theorem C4_out_num_zero_stops_at_first_match_witness :
    replay (ReadBag ext0 (params0 3 0) bag10).trace = [scanMsg 101] ∧
    files (ReadBag ext0 (params0 3 0) bag10).trace = [] ∧
    (ReadBag ext0 (params0 3 0) bag10).exit = Exit.capped :=
  have h := C4_out_num_zero_stops_at_first_match ext0 (params0 3 0) bag10 (by decide)
    (by decide)
  ⟨h.1.trans (by decide), h.2.1.trans (by decide), h.2.2.trans (by decide)⟩

/-- Counterexample to C5: the loop reads a record on another topic, a matched record
that deserializes and a matched record that does not; it is left there by the exception.
The matched records among the three records read are two, the replay log holds one. -/
theorem C5_counterexample :
    [otherMsg 1, scanMsg 2, badMsg 3, scanMsg 4] =
      [otherMsg 1, scanMsg 2, badMsg 3] ++
        (ReadBag ext0 (params0 1 2) [otherMsg 1, scanMsg 2, badMsg 3, scanMsg 4]).unread ∧
    matched (params0 1 2) [otherMsg 1, scanMsg 2, badMsg 3] = [scanMsg 2, badMsg 3] ∧
    replay (ReadBag ext0 (params0 1 2) [otherMsg 1, scanMsg 2, badMsg 3, scanMsg 4]).trace =
      [scanMsg 2] ∧
    (ReadBag ext0 (params0 1 2) [otherMsg 1, scanMsg 2, badMsg 3, scanMsg 4]).final.cnt = 1 := by
  decide

/-- C5, amended: for every bag and every configuration, when `ReadBag` ends the number of
records written to the replay log is `cnt`.  With `consumed` the records the loop read
(the bag is `consumed` followed by the records never read): when the loop is not left by
an exception, the replay log is the list of the matched records of `consumed`, each once,
in source order and unchanged, whatever `skip_num`, `out_num` and `only_xyz`; when it is
left by an exception, the last record of `consumed` is a matched record that does not
deserialize, and the matched records of `consumed` are the replay log followed by that
record, which is not written.  No exception occurs when the records on the target topic
deserialize. -/
theorem C5_replay_is_matched_consumed {Scan Cloud : Type} (E : Ext Scan Cloud)
    (P : Params) (bag : List SerializedBagMessage) :
    (replay (ReadBag E P bag).trace).length = (ReadBag E P bag).final.cnt ∧
    (∃ consumed : List SerializedBagMessage,
      bag = consumed ++ (ReadBag E P bag).unread ∧
      ((ReadBag E P bag).exit ≠ Exit.threw →
        replay (ReadBag E P bag).trace = matched P consumed) ∧
      ((ReadBag E P bag).exit = Exit.threw →
        ∃ bad : SerializedBagMessage, bad.topic_name = P.target_topic ∧
          E.deserialize_message bad.serialized_data = none ∧
          consumed.getLast? = some bad ∧
          matched P consumed = replay (ReadBag E P bag).trace ++ [bad])) ∧
    (Deserializes E P bag → (ReadBag E P bag).exit ≠ Exit.threw) := by
  refine ⟨?_, ?_, fun hdes => loop_no_throw E P bag init hdes⟩
  · have h := loop_cnt E P bag init
    rw [ReadBag_replay]
    show _ = (loop E P bag init).final.cnt
    rw [h]
    simp [init]
  · obtain ⟨c, h1, h2, h3⟩ := loop_consumed E P bag init
    have hr := loop_passes_replay E P bag init
    refine ⟨c, h1, ?_, ?_⟩
    · intro h
      rw [ReadBag_replay, hr, h2 h]
    · intro h
      obtain ⟨bad, hb1, hb2, hb3⟩ := h3 h
      refine ⟨bad, hb1, hb2, by simp [hb3], ?_⟩
      rw [ReadBag_replay, hr, hb3]
      simp [matched, hb1]

/-- Witness of the amended C5 on the bag of ten matched records with `skip_num = 3`,
`out_num = 2`: the loop is left at `break`, `cnt = 5` and five records are written. -/
theorem C5_replay_is_matched_consumed_witness :
    (ReadBag ext0 (params0 3 2) bag10).final.cnt = 5 ∧
    (replay (ReadBag ext0 (params0 3 2) bag10).trace).length = 5 ∧
    (ReadBag ext0 (params0 3 2) bag10).exit ≠ Exit.threw :=
  have h := C5_replay_is_matched_consumed ext0 (params0 3 2) bag10
  ⟨h.1.symm.trans (by decide), h.1.trans (by decide), h.2.2 (by decide)⟩

/-- C6: a pass of the loop body does nothing (no event, the counters and the open flag
unchanged, the loop continues) if and only if the record's topic differs from
`target_topic` as a string; with target topic `/scan` a record on `scan` is not matched. -/
theorem C6_match_is_string_equality {Scan Cloud : Type} (E : Ext Scan Cloud) (P : Params)
    (m : SerializedBagMessage) (s : LoopState) :
    (body E P m s = ([], Outcome.next s) ↔ m.topic_name ≠ P.target_topic) ∧
    body ext0 (params0 3 2) ⟨"scan".toList, 5, [1]⟩ init = ([], Outcome.next init) := by
  refine ⟨⟨?_, body_other E P m s⟩, by decide⟩
  intro h hm
  cases hx : E.deserialize_message m.serialized_data with
  | none =>
    rw [body_throw E P m s hm hx] at h
    simp at h
  | some x =>
    rw [body_match E P m s x hm hx] at h
    have h1 := congrArg (fun p => replay p.1) h
    simp [replay_stepEvents, replay] at h1

theorem regex_replace_slash_no_slash (s : Str) : '/' ∉ regex_replace_slash s := by
  intro h
  obtain ⟨c, -, hc⟩ := List.mem_map.mp h
  by_cases h1 : c = '/'
  · simp [h1] at hc
  · rw [if_neg h1] at hc
    exact h1 hc

/-- C7: for every topic string the directory name computed by `ReadBag` is the topic with
one leading `/` removed (if present) and every remaining `/` replaced by `_`; it contains
no `/`, its length is the topic's length minus one when the topic starts with `/` and the
topic's length otherwise. -/
theorem C7_target_topic_name_sanitized (topic : Str) :
    target_topic_name topic = spec_sanitized topic ∧
    '/' ∉ target_topic_name topic ∧
    (target_topic_name topic).length =
      (if topic.head? = some '/' then topic.length - 1 else topic.length) ∧
    target_topic_name "/a/b".toList = "a_b".toList ∧
    target_topic_name "//a".toList = "_a".toList ∧
    target_topic_name "a/b".toList = "a_b".toList := by
  refine ⟨?_, ?_, ?_, by decide, by decide, by decide⟩
  · cases topic with
    | nil => rfl
    | cons c cs =>
      by_cases hc : c = '/'
      · subst hc
        simp [target_topic_name, spec_sanitized, regex_replace_slash]
      · simp only [target_topic_name, spec_sanitized, regex_replace_slash]
        split
        · rename_i h
          simp at h
          exact absurd h hc
        · split
          · rename_i h
            simp at h
            exact absurd h.1 hc
          · rfl
  · unfold target_topic_name
    exact regex_replace_slash_no_slash _
  · cases topic with
    | nil => rfl
    | cons c cs =>
      by_cases hc : c = '/'
      · subst hc
        simp [target_topic_name, regex_replace_slash]
      · simp [target_topic_name, regex_replace_slash, hc]

/-- Counterexample to C8: a run that emits the files of two records with time stamps
`9 < 10` names them `9.pcd` and `10.pcd`, and `9.pcd` does not sort before `10.pcd`. -/
theorem C8_counterexample :
    (files (ReadBag ext0 (params0 0 2) [scanMsg 9, scanMsg 10]).trace).map Prod.fst =
      [["out".toList, "scan".toList, fn 9], ["out".toList, "scan".toList, fn 10]] ∧
    fn 9 = "9.pcd".toList ∧ fn 10 = "10.pcd".toList ∧
    string_less (fn 9) (fn 10) = false ∧ string_less (fn 10) (fn 9) = true := by
  decide

/-- C8, amended: for two non-negative time stamps `t1 < t2` whose decimal renderings
have the same number of digits, the file name of `t1` sorts before the file name of `t2`
in lexicographic string order. -/
theorem C8_file_names_monotone_same_width (t1 t2 : Int) (h1 : 0 ≤ t1) (h12 : t1 < t2)
    (hlen : (to_string t1).length = (to_string t2).length) :
    string_less (fn t1) (fn t2) = true := by
  have h2 : 0 ≤ t2 := by omega
  rw [to_string_nonneg t1 h1, to_string_nonneg t2 h2] at hlen
  unfold fn
  rw [to_string_nonneg t1 h1, to_string_nonneg t2 h2]
  exact string_less_append_right _ _ _ _ hlen
    (natToString_less t2.toNat t1.toNat (by omega) hlen)

/-- Witness of the amended C8 at two time stamps of nineteen digits. -/
theorem C8_file_names_monotone_same_width_witness :
    string_less (fn 1700000000000000009) (fn 1700000000000000010) = true :=
  C8_file_names_monotone_same_width 1700000000000000009 1700000000000000010 (by decide)
    (by decide) (by decide)

/-- Counterexample to C9: the second of three records on the target topic does not
deserialize: `ReadBag` is left at that record, which is not written to the replay log, and
the third record is never read. -/
theorem C9_counterexample :
    (ext0.deserialize_message (badMsg 2).serialized_data) = none ∧
    replay (ReadBag ext0 (params0 0 5) [scanMsg 1, badMsg 2, scanMsg 3]).trace = [scanMsg 1] ∧
    (ReadBag ext0 (params0 0 5) [scanMsg 1, badMsg 2, scanMsg 3]).unread = [scanMsg 3] ∧
    (ReadBag ext0 (params0 0 5) [scanMsg 1, badMsg 2, scanMsg 3]).exit = Exit.threw := by
  decide

/-- C9, amended: if a record on the target topic does not deserialize
(`deserialize_message` throws), the effects of `ReadBag` are exactly those of the run on
the records before it: the record is not written to the replay log, no point-cloud file is
written for it, and when the loop reaches it the loop is left there by the exception and
no following record is read. -/
theorem C9_deserialize_failure_ends_run {Scan Cloud : Type} (E : Ext Scan Cloud)
    (P : Params) (pre post : List SerializedBagMessage) (bad : SerializedBagMessage)
    (hm : bad.topic_name = P.target_topic)
    (hx : E.deserialize_message bad.serialized_data = none) :
    (ReadBag E P (pre ++ bad :: post)).trace = (ReadBag E P pre).trace ∧
    (ReadBag E P (pre ++ bad :: post)).passes = (ReadBag E P pre).passes ∧
    (ReadBag E P (pre ++ bad :: post)).final = (ReadBag E P pre).final ∧
    (ReadBag E P (pre ++ bad :: post)).exit ≠ Exit.exhausted ∧
    ((ReadBag E P pre).exit = Exit.exhausted →
      (ReadBag E P (pre ++ bad :: post)).exit = Exit.threw ∧
      (ReadBag E P (pre ++ bad :: post)).unread = post) := by
  have h := loop_append_throw E P pre post bad init hm hx
  refine ⟨?_, h.2.1, h.2.2.1, h.2.2.2.1, h.2.2.2.2⟩
  rw [ReadBag_trace, ReadBag_trace, h.1]

/-- Witness of the amended C9 on three records of which the second does not
deserialize. -/
theorem C9_deserialize_failure_ends_run_witness :
    replay (ReadBag ext0 (params0 0 5) ([scanMsg 1] ++ badMsg 2 :: [scanMsg 3])).trace =
      [scanMsg 1] ∧
    (ReadBag ext0 (params0 0 5) ([scanMsg 1] ++ badMsg 2 :: [scanMsg 3])).exit = Exit.threw :=
  have h := C9_deserialize_failure_ends_run ext0 (params0 0 5) [scanMsg 1] [scanMsg 3]
    (badMsg 2) (by decide) (by decide)
  ⟨(congrArg replay h.1).trans (by decide), (h.2.2.2.2 (by decide)).1⟩

/-- Counterexample to C10: the first matched record of the bag does not deserialize:
`ReadBag` is left by the exception in the pass of that record and the writer is never
opened, although a record matches. -/
theorem C10_counterexample :
    (matched (params0 0 5) [otherMsg 1, badMsg 2, scanMsg 3]).head? = some (badMsg 2) ∧
    opens (ReadBag ext0 (params0 0 5) [otherMsg 1, badMsg 2, scanMsg 3]).trace = [] ∧
    (ReadBag ext0 (params0 0 5) [otherMsg 1, badMsg 2, scanMsg 3]).trace =
      [Event.create_directories ["out".toList, "scan".toList]] ∧
    (ReadBag ext0 (params0 0 5) [otherMsg 1, badMsg 2, scanMsg 3]).exit = Exit.threw := by
  decide

/-- C10, amended: for every bag the output bag writer is opened at most once in a run and
never when no record matches.  When the first matched record deserializes, the run starts
with the creation of the directory, then opens the writer at
`<out_path>/<sanitized target_topic>/<time stamp of the first matched record>`, creates
the topic and writes that record, and the writer is not opened again afterwards.  When
`deserialize_message` throws at the first matched record, the run ends there and the
writer is never opened. -/
theorem C10_writer_opened_once_at_first_match {Scan Cloud : Type} (E : Ext Scan Cloud)
    (P : Params) (bag : List SerializedBagMessage) :
    (opens (ReadBag E P bag).trace).length ≤ 1 ∧
    (matched P bag = [] → opens (ReadBag E P bag).trace = []) ∧
    (∀ (pre post : List SerializedBagMessage) (m : SerializedBagMessage),
      bag = pre ++ m :: post → (∀ x ∈ pre, x.topic_name ≠ P.target_topic) →
      m.topic_name = P.target_topic →
      ((E.deserialize_message m.serialized_data).isSome = true →
        ∃ rest : List (Event Cloud),
          (ReadBag E P bag).trace =
            Event.create_directories [P.out_path, spec_sanitized P.target_topic] ::
            Event.open_writer
              [P.out_path, spec_sanitized P.target_topic, to_string m.time_stamp] ::
            Event.create_topic m.topic_name :: Event.write m :: rest ∧
          opens rest = []) ∧
      (E.deserialize_message m.serialized_data = none →
        (ReadBag E P bag).trace =
          [Event.create_directories [P.out_path, spec_sanitized P.target_topic]] ∧
        (ReadBag E P bag).exit = Exit.threw)) := by
  refine ⟨?_, ?_, ?_⟩
  · rw [ReadBag_opens]
    exact loop_opens_le E P bag init
  · intro h
    rw [ReadBag_opens, (loop_nomatch_nil E P bag init h).1]
    rfl
  · intro pre post m hbag hpre hm
    constructor
    · intro hd
      obtain ⟨x, hx⟩ := Option.isSome_iff_exists.mp hd
      rw [ReadBag_trace, hbag, loop_nomatch E P pre (m :: post) init hpre]
      by_cases hb : P.out_num ≤ ((stepState P init).out_cnt : Int)
      · rw [loop_brk E P m post init x hm hx hb]
        simp only [stepEvents, init, o_dir, target_topic_name_eq_spec, if_true,
          List.cons_append, List.nil_append, List.singleton_append]
        refine ⟨_, rfl, ?_⟩
        split <;> simp [opens]
      · rw [loop_next E P m post init x hm hx hb]
        simp only [stepEvents, init, o_dir, target_topic_name_eq_spec, if_true,
          List.cons_append, List.nil_append, List.singleton_append]
        refine ⟨_, rfl, ?_⟩
        rw [opens_append, loop_opens_closed E P post _ rfl]
        split <;> simp [opens]
    · intro hx
      have h := loop_append_throw E P pre post m init hm hx
      have hn := loop_nomatch_nil E P pre init
        (List.filter_eq_nil_iff.mpr (fun x hxm => by simpa using hpre x hxm))
      refine ⟨?_, ?_⟩
      · rw [ReadBag_trace, hbag, h.1, hn.1, o_dir, target_topic_name_eq_spec]
      · show (loop E P bag init).exit = Exit.threw
        rw [hbag]
        exact (h.2.2.2.2 hn.2).1

/-- Witness of the amended C10 on the bag of ten matched records: the writer is opened
once, at `out/scan/101`, before the first matched record is written. -/
theorem C10_writer_opened_once_at_first_match_witness :
    opens (ReadBag ext0 (params0 3 2) bag10).trace =
      [["out".toList, "scan".toList, "101".toList]] ∧
    ∃ rest : List (Event (List Nat)),
      (ReadBag ext0 (params0 3 2) bag10).trace =
        Event.create_directories ["out".toList, "scan".toList] ::
        Event.open_writer ["out".toList, "scan".toList, "101".toList] ::
        Event.create_topic "/scan".toList :: Event.write (scanMsg 101) :: rest ∧
      opens rest = [] :=
  ⟨by decide,
    ((C10_writer_opened_once_at_first_match ext0 (params0 3 2) bag10).2.2 [] (bag10.drop 1)
      (scanMsg 101) (by decide) (by decide) (by decide)).1 (by decide)⟩

end ros
end nebula
